import Mathlib

/-!
Shallow embedding of `jmclient`'s `direct_send` (the direct on-chain payment
construction and dispatch pipeline) and proofs about its behaviour.

External collaborators (wallet service, fee estimator, coin selector,
blockchain interface, prompts) are modelled as an explicit `Env` record of
functions; the pipeline itself is translated statement-by-statement from the
Python source.  Observable side effects (spendable-input retrieval, input
selection, transaction assembly, address labeling, broadcast) are recorded in
an ordered event list so that claims about call ordering and invocation counts
can be stated.
-/

namespace JMClient

abbrev Addr := String
abbrev ScriptTy := Nat

/-- One `(destination, amount)` pair of `dest_and_amounts`. -/
structure Target where
  destination : Addr
  amount : Int
deriving DecidableEq

/-- One spendable coin as returned by the wallet service
(`{utxo: {"value": .., "script": ..}}`); the dict key `(txid, index)`
is flattened into the record. -/
structure Utxo where
  txid : Nat
  idx : Nat
  value : Int
  script : Nat
deriving DecidableEq

/-- The `txtype=` argument of `estimate_tx_fee`: either a single wallet
transaction type or a per-input list of script types. -/
inductive FeeTxArg
  | one (t : ScriptTy)
  | many (ts : List (Option ScriptTy))
deriving DecidableEq

/-- The `outtype=` argument of `estimate_tx_fee`: either a single
(possibly unrecognized) output type or a list of them. -/
inductive FeeOutArg
  | one (t : Option ScriptTy)
  | many (ts : List (Option ScriptTy))
deriving DecidableEq

/-- Result of `wallet_service.set_address_label`: success, or the
`UnknownAddressForLabel` exception (the only one the caller catches). -/
inductive LabelResult
  | ok
  | unknownAddressForLabel
deriving DecidableEq

/-- One entry of the `outs` list: `{"address": .., "value": ..}`. -/
structure TxOut where
  address : Addr
  value : Int
deriving DecidableEq

/-- The external collaborators of `direct_send`, one field per function the
source calls.  `walletIsFidelityBond` models `isinstance(wallet_service.wallet,
FidelityBondMixin)`. -/
structure Env where
  validateAddress : Addr → Bool
  is_burn_destination : Addr → Bool
  walletIsFidelityBond : Bool
  FIDELITY_BOND_MIXDEPTH : Int
  get_outtype : Addr → Option ScriptTy
  get_txtype : ScriptTy
  get_utxos_by_mixdepth : Int → List Utxo
  select_utxos : Int → Int → List Utxo
  get_utxo_scripts : List Utxo → List (Option ScriptTy)
  estimate_tx_fee : Nat → Nat → FeeTxArg → FeeOutArg → Int
  get_internal_addr : Int → Addr
  compute_tx_locktime : Int
  script_to_path : Nat → List Int
  is_timelocked_path : List Int → Bool
  make_shuffled_tx : List (Nat × Nat) → List TxOut → Int → Int → Nat
  apply_rbf : Nat → Nat
  create_psbt_from_tx : Nat → List (Int × Nat) → Nat
  sign_psbt : Nat → Nat × Option String
  deserialize_psbt : Nat → Nat
  sign_tx : Nat → List (Nat × Int) → Bool × String
  human_readable_transaction : Nat → String
  cli_prompt_user_yesno : Bool
  set_address_label : Addr → String → LabelResult
  pushtx : Nat → Bool
  get_txid : Nat → Nat

/-- The keyword/positional arguments of one `direct_send` call. -/
structure Args where
  mixdepth : Int
  dest_and_amounts : List Target
  answeryes : Bool := false
  accept_callback : Option (String → Addr → Int → Int → Option Addr → Bool) := none
  return_transaction : Bool := false
  with_final_psbt : Bool := false
  optin_rbf : Bool := true
  custom_change_addr : Option Addr := none
  change_label : Option String := none

/-- Which burn precondition (source lines 65-79) rejected the call. -/
inductive BurnKind
  | nonFidelityBondWallet
  | confirmationOff
  | wrongMixdepth
  | nonZeroAmount
deriving DecidableEq

/-- Which exit site of the source produced a negative result. -/
inductive FailReason
  | assertFail
  | burn (k : BurnKind)
  | noFunds
  | psbtSignFail
  | signTxFail
  | userDeclined
  | broadcastFail
  | nameErrorChangeAddr
deriving DecidableEq

/-- The Python-level value handed back to the caller.  `raised` models an
exception escaping the function (a failed `assert`, or the `NameError` on
`change_addr` when sweeping with a `change_label`); `retNone` models a bare
`return`; the remaining constructors are the explicit return values. -/
inductive DSResult
  | raised (r : FailReason)
  | retNone (r : FailReason)
  | retFalse (r : FailReason)
  | retPsbt (p : Nat)
  | retTxid (t : Nat)
  | retTx (t : Nat)
deriving DecidableEq

/-- `true` exactly on the results that are a Python `return False`. -/
def DSResult.isRetFalse : DSResult → Bool
  | .retFalse _ => true
  | _ => false

/-- `true` exactly on results where a value is returned at all
(as opposed to an exception propagating out of the call). -/
def DSResult.isReturned : DSResult → Bool
  | .raised _ => false
  | _ => true

/-- `true` exactly on the bare-`return` rejections produced by the burn
precondition checks. -/
def DSResult.isBurnReject : DSResult → Bool
  | .retNone (.burn _) => true
  | _ => false

/-- Observable calls to external collaborators, in program order. -/
inductive Event
  | getSpendable (mixdepth : Int)
  | selectInputs (mixdepth : Int) (minValue : Int)
  | assembled (outs : List TxOut) (locktime : Int)
  | labelAddr (addr : Addr) (label : String) (res : LabelResult)
  | broadcast (tx : Nat)
deriving DecidableEq

/-- `true` exactly on broadcast (`pushtx`) invocations. -/
def Event.isBroadcastEv : Event → Bool
  | .broadcast _ => true
  | _ => false

/-- `true` exactly on the input-retrieval collaborator calls
(`get_utxos_by_mixdepth` and `select_utxos`). -/
def Event.isInputFetch : Event → Bool
  | .getSpendable _ => true
  | .selectInputs _ _ => true
  | _ => false

/-- State accumulated by the validation loop over `dest_and_amounts`
(source lines 40-87): the sweep marker, the unresolved output script types,
the running output total, and the loop variables `destination`/`amount`,
which the source reads again after the loop ends. -/
structure ValState where
  is_sweep : Bool
  outtypes : List (Option ScriptTy)
  total_outputs_val : Int
  destination : Addr
  amount : Int
deriving DecidableEq

/-- How one iteration of the validation loop aborted: a failed `assert`
(an `AssertionError` escapes) or one of the burn-precondition bare returns. -/
inductive VFailure
  | assertError
  | burnReject (k : BurnKind)
deriving DecidableEq

/-- One iteration of the `for target in dest_and_amounts` loop
(source lines 52-87), with the checks flattened into one `if` chain in the
source's evaluation order. -/
def processTarget (env : Env) (answeryes : Bool) (mixdepth : Int)
    (custom_change_addr : Option Addr) (nDests : Nat)
    (st : ValState) (t : Target) : Except VFailure ValState :=
  if (env.validateAddress t.destination || env.is_burn_destination t.destination) = false then
    .error .assertError
  else if t.amount = 0 ∧ ¬(custom_change_addr = none ∧ nDests = 1) then
    .error .assertError
  else if t.amount < 0 then
    .error .assertError
  else if env.is_burn_destination t.destination ∧ env.walletIsFidelityBond = false then
    .error (.burnReject .nonFidelityBondWallet)
  else if env.is_burn_destination t.destination ∧ answeryes = true then
    .error (.burnReject .confirmationOff)
  else if env.is_burn_destination t.destination ∧ mixdepth ≠ env.FIDELITY_BOND_MIXDEPTH then
    .error (.burnReject .wrongMixdepth)
  else if env.is_burn_destination t.destination ∧ t.amount ≠ 0 then
    .error (.burnReject .nonZeroAmount)
  else
    .ok { is_sweep := if t.amount = 0 then true else st.is_sweep,
          outtypes := st.outtypes ++ [env.get_outtype t.destination],
          total_outputs_val := st.total_outputs_val + t.amount,
          destination := t.destination,
          amount := t.amount }

/-- The whole validation loop. -/
def validateLoop (env : Env) (answeryes : Bool) (mixdepth : Int)
    (custom_change_addr : Option Addr) (nDests : Nat) :
    ValState → List Target → Except VFailure ValState
  | st, [] => .ok st
  | st, t :: ts =>
    match processTarget env answeryes mixdepth custom_change_addr nDests st t with
    | .error e => .error e
    | .ok st2 => validateLoop env answeryes mixdepth custom_change_addr nDests st2 ts

/-- The validation loop started from the source's initial state
(`is_sweep = False`, `outtypes = []`, `total_outputs_val = 0`). -/
def validateTargets (env : Env) (answeryes : Bool) (mixdepth : Int)
    (custom_change_addr : Option Addr) (targets : List Target) :
    Except VFailure ValState :=
  validateLoop env answeryes mixdepth custom_change_addr targets.length
    { is_sweep := false, outtypes := [], total_outputs_val := 0,
      destination := "", amount := 0 } targets

/-- Sum of the `value` fields of a utxo collection
(`sum([va['value'] for u, va in utxos.items()])`). -/
def sumValues (us : List Utxo) : Int := (us.map Utxo.value).sum

/-- Sum of the `value` fields of an output list. -/
def sumOuts (os : List TxOut) : Int := (os.map TxOut.value).sum

/-- Everything the sweep branch (source lines 91-106) computes. -/
structure SweepPlan where
  utxos : List Utxo
  fee_est : Int
  total_inputs_val : Int
  outs : List TxOut

/-- The sweep fee (source line 103): estimated from the actual retrieved
input count, the inputs' real script types, and the first destination's
(possibly unrecognized) output type. -/
def sweepFee (env : Env) (mixdepth : Int) (vs : ValState) : Int :=
  let utxos := env.get_utxos_by_mixdepth mixdepth
  env.estimate_tx_fee utxos.length 1
    (.many (env.get_utxo_scripts utxos)) (.one (vs.outtypes.headD none))

/-- The sweep branch: retrieve every spendable input of the mixdepth, fail
with the no-funds bare return if there are none, estimate the fee from the
actual input count and the inputs' real script types, and emit the single
output `total_inputs_val - fee_est`. -/
def sweepPlanOf (env : Env) (mixdepth : Int) (vs : ValState)
    (targets : List Target) : Except FailReason SweepPlan :=
  let destination := (targets.headD { destination := "", amount := 0 }).destination
  let utxos := env.get_utxos_by_mixdepth mixdepth
  if utxos = [] then .error .noFunds
  else
    .ok { utxos := utxos, fee_est := sweepFee env mixdepth vs,
          total_inputs_val := sumValues utxos,
          outs := [{ address := destination,
                     value := sumValues utxos - sweepFee env mixdepth vs }] }

/-- Everything the payment (non-sweep) branch (source lines 107-144)
computes. -/
structure PayPlan where
  utxos : List Utxo
  select_min_value : Int
  initial_fee_est : Int
  fee_est : Int
  total_inputs_val : Int
  changeval : Int
  change_addr : Addr
  outs : List TxOut

/-- The change output's script type (source lines 108-115): the custom change
address's recognized type if one was given and resolved, otherwise the
wallet's transaction type. -/
def payChangeType (env : Env) (custom_change_addr : Option Addr) : ScriptTy :=
  match custom_change_addr with
  | some ca => (env.get_outtype ca).getD env.get_txtype
  | none => env.get_txtype

/-- The output-type list handed to the fee estimator in payment mode
(source lines 116-123): the per-destination types with an unrecognized first
entry patched to the change type, plus the appended change type. -/
def payOuttypes (env : Env) (custom_change_addr : Option Addr)
    (vs : ValState) : List (Option ScriptTy) :=
  (match vs.outtypes with
   | none :: rest => some (payChangeType env custom_change_addr) :: rest
   | l => l) ++ [some (payChangeType env custom_change_addr)]

/-- The conservative fee estimate (source lines 127-128): reference input
count 8, output count `len(dest_and_amounts) + 1`, the wallet's transaction
type for inputs. -/
def payInitialFee (env : Env) (custom_change_addr : Option Addr)
    (vs : ValState) (targets : List Target) : Int :=
  env.estimate_tx_fee 8 (targets.length + 1) (.one env.get_txtype)
    (.many (payOuttypes env custom_change_addr vs))

/-- The minimum-value target passed to `select_utxos` (source line 129).
The source passes `amount + initial_fee_est`, where `amount` is the loop
variable left holding the LAST destination's amount. -/
def paySelectMin (env : Env) (custom_change_addr : Option Addr)
    (vs : ValState) (targets : List Target) : Int :=
  vs.amount + payInitialFee env custom_change_addr vs targets

/-- The inputs returned by the external selector in payment mode. -/
def payUtxos (env : Env) (mixdepth : Int) (custom_change_addr : Option Addr)
    (vs : ValState) (targets : List Target) : List Utxo :=
  env.select_utxos mixdepth (paySelectMin env custom_change_addr vs targets)

/-- The effective payment-mode fee (source lines 132-136): re-estimated from
the actual selected inputs when fewer than 8 were selected, otherwise the
conservative estimate. -/
def payFee (env : Env) (mixdepth : Int) (custom_change_addr : Option Addr)
    (vs : ValState) (targets : List Target) : Int :=
  let utxos := payUtxos env mixdepth custom_change_addr vs targets
  if utxos.length < 8 then
    env.estimate_tx_fee utxos.length (targets.length + 1)
      (.many (env.get_utxo_scripts utxos))
      (.many (payOuttypes env custom_change_addr vs))
  else payInitialFee env custom_change_addr vs targets

/-- The change value (source line 138):
`total_inputs_val - fee_est - total_outputs_val`. -/
def payChangeval (env : Env) (mixdepth : Int) (custom_change_addr : Option Addr)
    (vs : ValState) (targets : List Target) : Int :=
  sumValues (payUtxos env mixdepth custom_change_addr vs targets)
    - payFee env mixdepth custom_change_addr vs targets
    - vs.total_outputs_val

/-- The change address (source lines 142-143). -/
def payChangeAddr (env : Env) (mixdepth : Int) : Option Addr → Addr
  | none => env.get_internal_addr mixdepth
  | some ca => ca

/-- The payment-mode output list (source lines 139-144): every requested
output followed by the change output. -/
def payOuts (env : Env) (mixdepth : Int) (custom_change_addr : Option Addr)
    (vs : ValState) (targets : List Target) : List TxOut :=
  (targets.map fun t => { address := t.destination, value := t.amount : TxOut })
    ++ [{ address := payChangeAddr env mixdepth custom_change_addr,
          value := payChangeval env mixdepth custom_change_addr vs targets }]

/-- The payment branch (source lines 107-144) assembled from the definitions
above. -/
def payPlanOf (env : Env) (mixdepth : Int) (custom_change_addr : Option Addr)
    (vs : ValState) (targets : List Target) : PayPlan :=
  { utxos := payUtxos env mixdepth custom_change_addr vs targets,
    select_min_value := paySelectMin env custom_change_addr vs targets,
    initial_fee_est := payInitialFee env custom_change_addr vs targets,
    fee_est := payFee env mixdepth custom_change_addr vs targets,
    total_inputs_val := sumValues (payUtxos env mixdepth custom_change_addr vs targets),
    changeval := payChangeval env mixdepth custom_change_addr vs targets,
    change_addr := payChangeAddr env mixdepth custom_change_addr,
    outs := payOuts env mixdepth custom_change_addr vs targets }

/-- The derivation path of a utxo's script (`wallet_service.script_to_path`). -/
def pathOf (env : Env) (u : Utxo) : List Int := env.script_to_path u.script

/-- `FidelityBondMixin.is_timelocked_path` applied to the utxo's path. -/
def isTimelockedUtxo (env : Env) (u : Utxo) : Bool :=
  env.is_timelocked_path (pathOf env u)

/-- `path[-1]`, the unlock timestamp encoded at the end of a timelocked
derivation path. -/
def unlockTimeOf (env : Env) (u : Utxo) : Int := (pathOf env u).getLastD 0

/-- One iteration of the locktime-raising loop (source lines 150-155):
`tx_locktime = max(tx_locktime, path_locktime + 1)` for a timelocked input,
unchanged otherwise. -/
def ltStep (env : Env) (lt : Int) (u : Utxo) : Int :=
  if isTimelockedUtxo env u then max lt (unlockTimeOf env u + 1) else lt

/-- The locktime computation (source lines 146-159): start from
`compute_tx_locktime()` and, when spending from the fidelity-bond mixdepth of
a fidelity-bond wallet, raise it to `path_locktime + 1` for every timelocked
input. -/
def resolveLocktime (env : Env) (mixdepth : Int) (utxos : List Utxo) : Int :=
  let base := env.compute_tx_locktime
  if mixdepth = env.FIDELITY_BOND_MIXDEPTH ∧ env.walletIsFidelityBond = true then
    utxos.foldl (ltStep env) base
  else base

/-- `make_shuffled_tx` followed by the opt-in replace-by-fee sequence-number
rewrite (source lines 165-170); the shuffle itself is the collaborator's. -/
def assembledTx (env : Env) (a : Args) (utxos : List Utxo) (outs : List TxOut) : Nat :=
  let tx0 := env.make_shuffled_tx (utxos.map fun u => (u.txid, u.idx)) outs 2
    (resolveLocktime env a.mixdepth utxos)
  if a.optin_rbf then env.apply_rbf tx0 else tx0

/-- The broadcast step (source lines 221-232): `pushtx`, then either the txid
or the transaction object on success, `False` on failure.  The returned event
list holds only the events this step emits. -/
def broadcastStep (env : Env) (return_transaction : Bool) (tx : Nat) :
    DSResult × List Event :=
  if env.pushtx tx then
    if return_transaction then (.retTx tx, [.broadcast tx])
    else (.retTxid (env.get_txid tx), [.broadcast tx])
  else (.retFalse .broadcastFail, [.broadcast tx])

/-- Source lines 172-232 after assembly: the finalizer (PSBT export, or
sign + confirm + optional labeling + broadcast).  The returned event list
holds only the events emitted after assembly.  `change_addr` is `none` in
sweep mode, where the Python local of that name was never assigned —
referencing it there raises a `NameError`. -/
def finalizeTail (env : Env) (a : Args) (utxos : List Utxo) (outs : List TxOut)
    (fee_est total_inputs_val : Int) (destination : Addr) (amount : Int)
    (change_addr : Option Addr) : DSResult × List Event :=
  let tx := assembledTx env a utxos outs
  if a.with_final_psbt then
    let new_psbt := env.create_psbt_from_tx tx (utxos.map fun u => (u.value, u.script))
    match env.sign_psbt new_psbt with
    | (_, some _) => (.retFalse .psbtSignFail, [])
    | (ser, none) => (.retPsbt (env.deserialize_psbt ser), [])
  else
    match env.sign_tx tx (utxos.map fun u => (u.script, u.value)) with
    | (false, _) => (.retNone .signTxFail, [])
    | (true, _) =>
      let actual_amount := if amount ≠ 0 then amount else total_inputs_val - fee_est
      let accepted : Bool :=
        if a.answeryes then true
        else
          match a.accept_callback with
          | none => env.cli_prompt_user_yesno
          | some cb =>
            cb (env.human_readable_transaction tx) destination actual_amount
              fee_est a.custom_change_addr
      if accepted = false then (.retFalse .userDeclined, [])
      else
        match a.change_label with
        | none => broadcastStep env a.return_transaction tx
        | some lbl =>
          match change_addr with
          | none => (.raised .nameErrorChangeAddr, [])
          | some ca =>
            let res := env.set_address_label ca lbl
            let r := broadcastStep env a.return_transaction tx
            (r.1, Event.labelAddr ca lbl res :: r.2)

/-- Source lines 146-232: locktime, transaction assembly, then the finalizer;
the incoming event log is extended with the assembly event and whatever the
finalizer emits. -/
def finalize (env : Env) (a : Args) (utxos : List Utxo) (outs : List TxOut)
    (fee_est total_inputs_val : Int) (destination : Addr) (amount : Int)
    (change_addr : Option Addr) (ev : List Event) : DSResult × List Event :=
  let r := finalizeTail env a utxos outs fee_est total_inputs_val destination
    amount change_addr
  (r.1, ev ++ Event.assembled outs (resolveLocktime env a.mixdepth utxos) :: r.2)

/-- `assert custom_change_addr is None or validate_address(custom_change_addr)[0]`. -/
def customChangeOk (env : Env) : Option Addr → Bool
  | none => true
  | some ca => env.validateAddress ca

/-- The whole of `direct_send`, returning the Python-level result together
with the ordered log of observable collaborator calls. -/
def direct_send (env : Env) (a : Args) : DSResult × List Event :=
  if a.dest_and_amounts.length = 0 then (.raised .assertFail, [])
  else if customChangeOk env a.custom_change_addr = false then (.raised .assertFail, [])
  else if a.mixdepth < 0 then (.raised .assertFail, [])
  else
    match validateTargets env a.answeryes a.mixdepth a.custom_change_addr
        a.dest_and_amounts with
    | .error .assertError => (.raised .assertFail, [])
    | .error (.burnReject k) => (.retNone (.burn k), [])
    | .ok vs =>
      if vs.is_sweep then
        let destination :=
          (a.dest_and_amounts.headD { destination := "", amount := 0 }).destination
        let amount :=
          (a.dest_and_amounts.headD { destination := "", amount := 0 }).amount
        let ev := [Event.getSpendable a.mixdepth]
        match sweepPlanOf env a.mixdepth vs a.dest_and_amounts with
        | .error r => (.retNone r, ev)
        | .ok p =>
          finalize env a p.utxos p.outs p.fee_est p.total_inputs_val
            destination amount none ev
      else
        let p := payPlanOf env a.mixdepth a.custom_change_addr vs a.dest_and_amounts
        let ev := [Event.selectInputs a.mixdepth p.select_min_value]
        finalize env a p.utxos p.outs p.fee_est p.total_inputs_val
          vs.destination vs.amount (some p.change_addr) ev

/-- The well-formedness conditions the per-target asserts of the validation
loop (source lines 55-62) check for one target: the address validates or is a
burn marker, the amount is non-negative, and amount 0 is only allowed with no
custom change address and exactly one destination. -/
@[reducible] def targetWellFormed (env : Env) (cc : Option Addr) (n : Nat)
    (t : Target) : Prop :=
  (env.validateAddress t.destination || env.is_burn_destination t.destination) = true ∧
  0 ≤ t.amount ∧
  (t.amount = 0 → cc = none ∧ n = 1)

/-! ## Concrete environments and arguments used to instantiate theorems -/

/-- A small concrete collaborator environment: every address validates,
`"BURN"` is the burn marker, a plain (non-fidelity-bond) wallet holding one
100000-satoshi coin, flat 1000-satoshi fee estimates. -/
def testEnv : Env :=
  { validateAddress := fun _ => true
    is_burn_destination := fun s => s = "BURN"
    walletIsFidelityBond := false
    FIDELITY_BOND_MIXDEPTH := 0
    get_outtype := fun _ => some 1
    get_txtype := 1
    get_utxos_by_mixdepth := fun _ => [{ txid := 1, idx := 0, value := 100000, script := 7 }]
    select_utxos := fun _ _ => [{ txid := 1, idx := 0, value := 100000, script := 7 }]
    get_utxo_scripts := fun us => us.map fun _ => some 1
    estimate_tx_fee := fun _ _ _ _ => 1000
    get_internal_addr := fun _ => "CHANGE"
    compute_tx_locktime := 700000
    script_to_path := fun _ => [0, 0, 0]
    is_timelocked_path := fun _ => false
    make_shuffled_tx := fun _ _ _ _ => 42
    apply_rbf := fun t => t
    create_psbt_from_tx := fun _ _ => 5
    sign_psbt := fun p => (p, none)
    deserialize_psbt := fun p => p
    sign_tx := fun _ _ => (true, "")
    human_readable_transaction := fun _ => ""
    cli_prompt_user_yesno := true
    set_address_label := fun _ _ => .ok
    pushtx := fun _ => true
    get_txid := fun t => t }

/-- One-destination 50000-satoshi payment request at mixdepth 0. -/
def argsPay : Args :=
  { mixdepth := 0, dest_and_amounts := [{ destination := "A", amount := 50000 }] }

/-- The validation state `argsPay` produces under `testEnv`. -/
def vsPay : ValState :=
  { is_sweep := false, outtypes := [some 1], total_outputs_val := 50000,
    destination := "A", amount := 50000 }

/-- Single-destination sweep request (`amount = 0`) at mixdepth 0. -/
def argsSweep : Args :=
  { mixdepth := 0, dest_and_amounts := [{ destination := "A", amount := 0 }] }

/-- The validation state `argsSweep` produces under `testEnv`. -/
def vsSweep : ValState :=
  { is_sweep := true, outtypes := [some 1], total_outputs_val := 0,
    destination := "A", amount := 0 }

/-- Two-destination payment request: 100000 satoshi to `"A"`, then 50000
satoshi to `"B"`. -/
def argsMulti : Args :=
  { mixdepth := 0,
    dest_and_amounts := [{ destination := "A", amount := 100000 },
                         { destination := "B", amount := 50000 }] }

/-- The validation state `argsMulti` produces under `testEnv`: note the loop
variable `amount` is left holding the last destination's 50000. -/
def vsMulti : ValState :=
  { is_sweep := false, outtypes := [some 1, some 1], total_outputs_val := 150000,
    destination := "B", amount := 50000 }

/-- `testEnv` with an absurdly large flat fee estimate, used to drive the
residual value negative. -/
def envBigFee : Env := { testEnv with estimate_tx_fee := fun _ _ _ _ => 1000000 }

/-- `testEnv` with no spendable coins in any mixdepth. -/
def envNoCoins : Env := { testEnv with get_utxos_by_mixdepth := fun _ => [] }

/-- `testEnv` whose raw-transaction signer always fails. -/
def envSignFail : Env := { testEnv with sign_tx := fun _ _ => (false, "bad") }

/-- A fidelity-bond wallet environment: scripts 9 and above decode to
timelocked two-element paths ending in a unix unlock timestamp. -/
def envFB : Env :=
  { testEnv with
    walletIsFidelityBond := true
    script_to_path := fun s => if 9 ≤ s then [Int.ofNat s, 1700000000 + Int.ofNat s] else [0]
    is_timelocked_path := fun p => p.length = 2 }

/-- A burn sweep request (`("BURN", 0)`) at mixdepth 0. -/
def argsBurn : Args :=
  { mixdepth := 0, dest_and_amounts := [{ destination := "BURN", amount := 0 }] }

/-- A request containing an amount-0 entry together with a second
destination. -/
def argsZeroMulti : Args :=
  { mixdepth := 0,
    dest_and_amounts := [{ destination := "A", amount := 0 },
                         { destination := "B", amount := 5 }] }

/-- `argsPay` as a PSBT-export request. -/
def argsPsbt : Args := { argsPay with with_final_psbt := true }

/-- `argsPay` auto-confirmed with a change label to apply. -/
def argsLbl : Args := { argsPay with answeryes := true, change_label := some "donation" }

/-- One timelocked coin under `envFB` (script 9 decodes to a timelocked
path). -/
def utxosFB : List Utxo := [{ txid := 1, idx := 0, value := 5000, script := 9 }]

/-! ## Helper lemmas about the validation loop -/

/-- A successful loop iteration adds the target's amount to the running
output total. -/
theorem processTarget_total {env : Env} {ay : Bool} {md : Int} {cc : Option Addr}
    {n : Nat} {st st2 : ValState} {t : Target}
    (h : processTarget env ay md cc n st t = .ok st2) :
    st2.total_outputs_val = st.total_outputs_val + t.amount := by
  unfold processTarget at h
  split_ifs at h
  all_goals first
    | exact Except.noConfusion h
    | (injection h with h2; subst h2; rfl)

/-- A successful validation run accumulates exactly the sum of the requested
amounts on top of the initial total. -/
theorem validateLoop_total {env : Env} {ay : Bool} {md : Int} {cc : Option Addr}
    {n : Nat} :
    ∀ {ts : List Target} {st st2 : ValState},
      validateLoop env ay md cc n st ts = .ok st2 →
      st2.total_outputs_val = st.total_outputs_val + (ts.map Target.amount).sum := by
  intro ts
  induction ts with
  | nil =>
    intro st st2 h
    injection h with h2
    subst h2
    simp
  | cons t ts ih =>
    intro st st2 h
    unfold validateLoop at h
    cases hp : processTarget env ay md cc n st t with
    | error e => rw [hp] at h; exact Except.noConfusion h
    | ok stm =>
      rw [hp] at h
      have h1 := ih h
      have h2 := processTarget_total hp
      simp only [List.map_cons, List.sum_cons]
      omega

/-- `total_outputs_val` of a successfully validated request is the sum of all
requested amounts. -/
theorem validateTargets_total {env : Env} {ay : Bool} {md : Int}
    {cc : Option Addr} {ts : List Target} {vs : ValState}
    (h : validateTargets env ay md cc ts = .ok vs) :
    vs.total_outputs_val = (ts.map Target.amount).sum := by
  have := validateLoop_total h
  simpa using this

/-- Sum of the values of the requested outputs plus one extra output. -/
theorem sumOuts_targets_append (ts : List Target) (extra : TxOut) :
    sumOuts ((ts.map fun t => { address := t.destination, value := t.amount : TxOut })
        ++ [extra])
      = (ts.map Target.amount).sum + extra.value := by
  simp only [sumOuts, List.map_append, List.sum_append, List.map_map,
    List.map_cons, List.map_nil, List.sum_cons, List.sum_nil, add_zero]
  rfl

/-! ## C1 -/

/-- C1: for every valid payment-mode (non-sweep) request that reaches
transaction assembly, the sum of all output values (requested outputs plus
the change output) plus the computed fee equals exactly the sum of the values
of the selected inputs. -/
theorem c1_payment_mode_balance (env : Env) (a : Args) (vs : ValState)
    (hv : validateTargets env a.answeryes a.mixdepth a.custom_change_addr
        a.dest_and_amounts = .ok vs)
    (hs : vs.is_sweep = false) :
    sumOuts (payPlanOf env a.mixdepth a.custom_change_addr vs a.dest_and_amounts).outs
      + (payPlanOf env a.mixdepth a.custom_change_addr vs a.dest_and_amounts).fee_est
      = sumValues (payPlanOf env a.mixdepth a.custom_change_addr vs a.dest_and_amounts).utxos := by
  have htot := validateTargets_total hv
  show sumOuts (payOuts env a.mixdepth a.custom_change_addr vs a.dest_and_amounts)
      + payFee env a.mixdepth a.custom_change_addr vs a.dest_and_amounts
      = sumValues (payUtxos env a.mixdepth a.custom_change_addr vs a.dest_and_amounts)
  rw [payOuts, sumOuts_targets_append, ← htot]
  show vs.total_outputs_val
      + payChangeval env a.mixdepth a.custom_change_addr vs a.dest_and_amounts
      + payFee env a.mixdepth a.custom_change_addr vs a.dest_and_amounts = _
  rw [payChangeval]
  ring

/-! ## Shape lemmas: how `direct_send` runs each branch -/

/-- Whatever the finalizer does, its event log extends the incoming log with
the assembly event first. -/
theorem finalize_events_shape (env : Env) (a : Args) (utxos : List Utxo)
    (outs : List TxOut) (fee_est total_inputs_val : Int) (destination : Addr)
    (amount : Int) (change_addr : Option Addr) (ev : List Event) :
    ∃ rest,
      (finalize env a utxos outs fee_est total_inputs_val destination amount
          change_addr ev).2
        = ev ++ [Event.assembled outs (resolveLocktime env a.mixdepth utxos)] ++ rest := by
  exact ⟨(finalizeTail env a utxos outs fee_est total_inputs_val destination amount
      change_addr).2, by simp [finalize]⟩

/-- With the top-level asserts passing, a successfully validated non-sweep
request runs the payment planner and hands its results to the finalizer,
after logging the input-selection call. -/
theorem direct_send_payment_run (env : Env) (a : Args) (vs : ValState)
    (hne : a.dest_and_amounts ≠ [])
    (hcc : customChangeOk env a.custom_change_addr = true)
    (hmd : 0 ≤ a.mixdepth)
    (hv : validateTargets env a.answeryes a.mixdepth a.custom_change_addr
        a.dest_and_amounts = .ok vs)
    (hs : vs.is_sweep = false) :
    direct_send env a
      = finalize env a (payUtxos env a.mixdepth a.custom_change_addr vs a.dest_and_amounts)
          (payOuts env a.mixdepth a.custom_change_addr vs a.dest_and_amounts)
          (payFee env a.mixdepth a.custom_change_addr vs a.dest_and_amounts)
          (sumValues (payUtxos env a.mixdepth a.custom_change_addr vs a.dest_and_amounts))
          vs.destination vs.amount
          (some (payChangeAddr env a.mixdepth a.custom_change_addr))
          [Event.selectInputs a.mixdepth
            (paySelectMin env a.custom_change_addr vs a.dest_and_amounts)] := by
  unfold direct_send
  rw [if_neg (by simpa using hne), if_neg (by simp [hcc]), if_neg (not_lt.mpr hmd)]
  simp only [hv, hs, Bool.false_eq_true, if_false]
  rfl

/-- With the top-level asserts passing, a successfully validated sweep request
with nonempty spendable inputs runs the sweep planner and hands its results
to the finalizer, after logging the input-retrieval call. -/
theorem direct_send_sweep_run (env : Env) (a : Args) (vs : ValState)
    (hne : a.dest_and_amounts ≠ [])
    (hcc : customChangeOk env a.custom_change_addr = true)
    (hmd : 0 ≤ a.mixdepth)
    (hv : validateTargets env a.answeryes a.mixdepth a.custom_change_addr
        a.dest_and_amounts = .ok vs)
    (hs : vs.is_sweep = true)
    (hu : env.get_utxos_by_mixdepth a.mixdepth ≠ []) :
    direct_send env a
      = finalize env a (env.get_utxos_by_mixdepth a.mixdepth)
          [{ address := (a.dest_and_amounts.headD { destination := "", amount := 0 }).destination,
             value := sumValues (env.get_utxos_by_mixdepth a.mixdepth)
               - sweepFee env a.mixdepth vs }]
          (sweepFee env a.mixdepth vs)
          (sumValues (env.get_utxos_by_mixdepth a.mixdepth))
          (a.dest_and_amounts.headD { destination := "", amount := 0 }).destination
          (a.dest_and_amounts.headD { destination := "", amount := 0 }).amount
          none
          [Event.getSpendable a.mixdepth] := by
  unfold direct_send
  rw [if_neg (by simpa using hne), if_neg (by simp [hcc]), if_neg (not_lt.mpr hmd)]
  simp only [hv, hs, if_true]
  unfold sweepPlanOf
  simp only [if_neg hu]

/-! ## C2 -/

/-- C2: a sweep request with at least one spendable input reaches assembly
with exactly one output, whose value is the sum of all spendable input values
minus the fee, the fee being estimated from the actual retrieved input count
and the inputs' real script types (not the conservative reference count 8). -/
theorem c2_sweep_single_output (env : Env) (a : Args) (vs : ValState)
    (hne : a.dest_and_amounts ≠ [])
    (hcc : customChangeOk env a.custom_change_addr = true)
    (hmd : 0 ≤ a.mixdepth)
    (hv : validateTargets env a.answeryes a.mixdepth a.custom_change_addr
        a.dest_and_amounts = .ok vs)
    (hs : vs.is_sweep = true)
    (hu : env.get_utxos_by_mixdepth a.mixdepth ≠ []) :
    ∃ rest,
      (direct_send env a).2
        = [Event.getSpendable a.mixdepth,
           Event.assembled
             [{ address := (a.dest_and_amounts.headD
                  { destination := "", amount := 0 }).destination,
                value := sumValues (env.get_utxos_by_mixdepth a.mixdepth)
                  - env.estimate_tx_fee (env.get_utxos_by_mixdepth a.mixdepth).length 1
                      (FeeTxArg.many (env.get_utxo_scripts (env.get_utxos_by_mixdepth a.mixdepth)))
                      (FeeOutArg.one (vs.outtypes.headD none)) }]
             (resolveLocktime env a.mixdepth (env.get_utxos_by_mixdepth a.mixdepth))] ++ rest := by
  rw [direct_send_sweep_run env a vs hne hcc hmd hv hs hu]
  obtain ⟨rest, hres⟩ := finalize_events_shape env a
    (env.get_utxos_by_mixdepth a.mixdepth)
    [{ address := (a.dest_and_amounts.headD { destination := "", amount := 0 }).destination,
       value := sumValues (env.get_utxos_by_mixdepth a.mixdepth) - sweepFee env a.mixdepth vs }]
    (sweepFee env a.mixdepth vs)
    (sumValues (env.get_utxos_by_mixdepth a.mixdepth))
    (a.dest_and_amounts.headD { destination := "", amount := 0 }).destination
    (a.dest_and_amounts.headD { destination := "", amount := 0 }).amount
    none
    [Event.getSpendable a.mixdepth]
  exact ⟨rest, by rw [hres]; rfl⟩

/-- Witness for C1 at `testEnv`/`argsPay`. -/
theorem c1_payment_mode_balance_witness :
    (validateTargets testEnv argsPay.answeryes argsPay.mixdepth argsPay.custom_change_addr
        argsPay.dest_and_amounts = .ok vsPay) ∧
    vsPay.is_sweep = false ∧
    sumOuts (payPlanOf testEnv argsPay.mixdepth argsPay.custom_change_addr vsPay
        argsPay.dest_and_amounts).outs
      + (payPlanOf testEnv argsPay.mixdepth argsPay.custom_change_addr vsPay
        argsPay.dest_and_amounts).fee_est
      = sumValues (payPlanOf testEnv argsPay.mixdepth argsPay.custom_change_addr vsPay
        argsPay.dest_and_amounts).utxos :=
  ⟨rfl, rfl, c1_payment_mode_balance testEnv argsPay vsPay rfl rfl⟩

/-- Witness for C2 at `testEnv`/`argsSweep`. -/
theorem c2_sweep_single_output_witness :
    (argsSweep.dest_and_amounts ≠ []) ∧
    (customChangeOk testEnv argsSweep.custom_change_addr = true) ∧
    (0 ≤ argsSweep.mixdepth) ∧
    (validateTargets testEnv argsSweep.answeryes argsSweep.mixdepth
        argsSweep.custom_change_addr argsSweep.dest_and_amounts = .ok vsSweep) ∧
    (vsSweep.is_sweep = true) ∧
    (testEnv.get_utxos_by_mixdepth argsSweep.mixdepth ≠ []) ∧
    ∃ rest,
      (direct_send testEnv argsSweep).2
        = [Event.getSpendable argsSweep.mixdepth,
           Event.assembled
             [{ address := (argsSweep.dest_and_amounts.headD
                  { destination := "", amount := 0 }).destination,
                value := sumValues (testEnv.get_utxos_by_mixdepth argsSweep.mixdepth)
                  - testEnv.estimate_tx_fee
                      (testEnv.get_utxos_by_mixdepth argsSweep.mixdepth).length 1
                      (FeeTxArg.many (testEnv.get_utxo_scripts
                        (testEnv.get_utxos_by_mixdepth argsSweep.mixdepth)))
                      (FeeOutArg.one (vsSweep.outtypes.headD none)) }]
             (resolveLocktime testEnv argsSweep.mixdepth
               (testEnv.get_utxos_by_mixdepth argsSweep.mixdepth))] ++ rest :=
  ⟨by decide, rfl, by decide, rfl, rfl, by decide,
   c2_sweep_single_output testEnv argsSweep vsSweep (by decide) rfl (by decide) rfl rfl
     (by decide)⟩

/-! ## C5: the burn precondition checks -/

/-- A well-formed burn target failing any burn precondition is rejected by
its loop iteration with one of the burn-check bare returns. -/
theorem processTarget_burn_reject (env : Env) (ay : Bool) (md : Int)
    (cc : Option Addr) (n : Nat) (st : ValState) (t : Target)
    (hwf : targetWellFormed env cc n t)
    (hb : env.is_burn_destination t.destination = true)
    (hcond : env.walletIsFidelityBond = false ∨ ay = true ∨
      md ≠ env.FIDELITY_BOND_MIXDEPTH ∨ t.amount ≠ 0) :
    ∃ k, processTarget env ay md cc n st t = .error (.burnReject k) := by
  obtain ⟨ha, hge, h0⟩ := hwf
  have hc2 : ¬(t.amount = 0 ∧ ¬(cc = none ∧ n = 1)) := fun h => h.2 (h0 h.1)
  have hc3 : ¬ t.amount < 0 := not_lt.mpr hge
  by_cases h1 : env.walletIsFidelityBond = false
  · exact ⟨.nonFidelityBondWallet, by simp [processTarget, ha, hb, hc2, hc3, h1]; exact h0⟩
  · by_cases h2 : ay = true
    · exact ⟨.confirmationOff, by simp [processTarget, ha, hb, hc2, hc3, h1, h2]; exact h0⟩
    · by_cases h3 : md = env.FIDELITY_BOND_MIXDEPTH
      · have h4 : t.amount ≠ 0 := by
          rcases hcond with h | h | h | h
          · exact absurd h h1
          · exact absurd h h2
          · exact absurd h3 h
          · exact h
        exact ⟨.nonZeroAmount, by simp [processTarget, ha, hb, hc2, hc3, h0, h1, h2, h3, h4]⟩
      · exact ⟨.wrongMixdepth, by simp [processTarget, ha, hb, hc2, hc3, h1, h2, h3]; exact h0⟩

/-- A well-formed target that is not a failing burn target passes its loop
iteration, accumulating its amount and output type. -/
theorem processTarget_ok_of_wf (env : Env) (ay : Bool) (md : Int)
    (cc : Option Addr) (n : Nat) (st : ValState) (t : Target)
    (hwf : targetWellFormed env cc n t)
    (hok : env.is_burn_destination t.destination = false ∨
      (env.walletIsFidelityBond = true ∧ ay = false ∧
       md = env.FIDELITY_BOND_MIXDEPTH ∧ t.amount = 0)) :
    processTarget env ay md cc n st t = .ok
      { is_sweep := if t.amount = 0 then true else st.is_sweep,
        outtypes := st.outtypes ++ [env.get_outtype t.destination],
        total_outputs_val := st.total_outputs_val + t.amount,
        destination := t.destination, amount := t.amount } := by
  obtain ⟨ha, hge, h0⟩ := hwf
  have hc2 : ¬(t.amount = 0 ∧ ¬(cc = none ∧ n = 1)) := fun h => h.2 (h0 h.1)
  have hc3 : ¬ t.amount < 0 := not_lt.mpr hge
  rcases hok with hb | ⟨hfb, hay, hmd, h00⟩
  · have hv : env.validateAddress t.destination = true := by
      cases hv2 : env.validateAddress t.destination
      · rw [hv2, hb] at ha; exact absurd ha (by simp)
      · rfl
    simp [processTarget, hv, hb, hc2, hc3]
    exact h0
  · obtain ⟨hcn, hn1⟩ := h0 h00
    simp [processTarget, ha, hc2, hc3, hfb, hay, hmd, h00, hcn, hn1]

/-- If every target passes the per-target asserts and some target is a burn
destination violating a burn precondition, the validation loop ends in a
burn rejection. -/
theorem validateLoop_burn_reject {env : Env} {ay : Bool} {md : Int}
    {cc : Option Addr} {n : Nat} :
    ∀ {ts : List Target} (st : ValState),
      (∀ t ∈ ts, targetWellFormed env cc n t) →
      (∃ t0, t0 ∈ ts ∧ env.is_burn_destination t0.destination = true ∧
        (env.walletIsFidelityBond = false ∨ ay = true ∨
         md ≠ env.FIDELITY_BOND_MIXDEPTH ∨ t0.amount ≠ 0)) →
      ∃ k, validateLoop env ay md cc n st ts = .error (.burnReject k) := by
  intro ts
  induction ts with
  | nil =>
    intro st hwf hex
    obtain ⟨t0, ht0, _⟩ := hex
    exact absurd ht0 (List.not_mem_nil t0)
  | cons t ts ih =>
    intro st hwf hex
    by_cases hb : env.is_burn_destination t.destination = true
    · by_cases hcond : env.walletIsFidelityBond = false ∨ ay = true ∨
          md ≠ env.FIDELITY_BOND_MIXDEPTH ∨ t.amount ≠ 0
      · obtain ⟨k, hk⟩ :=
          processTarget_burn_reject env ay md cc n st t
            (hwf t (List.mem_cons_self t ts)) hb hcond
        exact ⟨k, by unfold validateLoop; rw [hk]⟩
      · push_neg at hcond
        obtain ⟨hfb, hay, hmd, h00⟩ := hcond
        have hok := processTarget_ok_of_wf env ay md cc n st t
          (hwf t (List.mem_cons_self t ts))
          (Or.inr ⟨by simpa using hfb, by simpa using hay, hmd, h00⟩)
        obtain ⟨t0, ht0, hb0, hcond0⟩ := hex
        have ht0' : t0 ∈ ts := by
          rcases List.mem_cons.mp ht0 with rfl | h
          · exfalso
            rcases hcond0 with h | h | h | h
            · exact hfb h
            · exact hay h
            · exact h hmd
            · exact h h00
          · exact h
        obtain ⟨k, hk⟩ := ih _ (fun t2 ht2 => hwf t2 (List.mem_cons_of_mem t ht2))
          ⟨t0, ht0', hb0, hcond0⟩
        exact ⟨k, by unfold validateLoop; rw [hok]; exact hk⟩
    · have hok := processTarget_ok_of_wf env ay md cc n st t
        (hwf t (List.mem_cons_self t ts)) (Or.inl (by simpa using hb))
      obtain ⟨t0, ht0, hb0, hcond0⟩ := hex
      have ht0' : t0 ∈ ts := by
        rcases List.mem_cons.mp ht0 with rfl | h
        · exact absurd hb0 hb
        · exact h
      obtain ⟨k, hk⟩ := ih _ (fun t2 ht2 => hwf t2 (List.mem_cons_of_mem t ht2))
        ⟨t0, ht0', hb0, hcond0⟩
      exact ⟨k, by unfold validateLoop; rw [hok]; exact hk⟩

/-- C5: a request containing a burn destination, when the wallet is not a
fidelity-bond wallet or the mixdepth is not the fidelity-bond mixdepth, or
`answeryes` is set, or the burn entry's amount is nonzero, is rejected by the
burn precondition checks (a bare return tagged with the burn reason) before
any input retrieval or selection: the collaborator event log stays empty. -/
theorem c5_burn_rejected_before_selection (env : Env) (a : Args)
    (hne : a.dest_and_amounts ≠ [])
    (hcc : customChangeOk env a.custom_change_addr = true)
    (hmd : 0 ≤ a.mixdepth)
    (hwf : ∀ t ∈ a.dest_and_amounts,
      targetWellFormed env a.custom_change_addr a.dest_and_amounts.length t)
    (t0 : Target) (ht0 : t0 ∈ a.dest_and_amounts)
    (hburn : env.is_burn_destination t0.destination = true)
    (hcond : (env.walletIsFidelityBond = false ∨
        a.mixdepth ≠ env.FIDELITY_BOND_MIXDEPTH) ∨
      a.answeryes = true ∨ t0.amount ≠ 0) :
    (direct_send env a).1.isBurnReject = true ∧ (direct_send env a).2 = [] := by
  have hcond2 : env.walletIsFidelityBond = false ∨ a.answeryes = true ∨
      a.mixdepth ≠ env.FIDELITY_BOND_MIXDEPTH ∨ t0.amount ≠ 0 := by tauto
  obtain ⟨k, hk⟩ := validateLoop_burn_reject
    { is_sweep := false, outtypes := [], total_outputs_val := 0,
      destination := "", amount := 0 }
    hwf ⟨t0, ht0, hburn, hcond2⟩
  have hv : validateTargets env a.answeryes a.mixdepth a.custom_change_addr
      a.dest_and_amounts = .error (.burnReject k) := hk
  unfold direct_send
  rw [if_neg (by simpa using hne), if_neg (by simp [hcc]), if_neg (not_lt.mpr hmd)]
  simp [hv, DSResult.isBurnReject]

/-- Witness for C5: burning from a plain wallet at `testEnv` is rejected with
an empty event log. -/
theorem c5_burn_rejected_before_selection_witness :
    (argsBurn.dest_and_amounts ≠ []) ∧
    (customChangeOk testEnv argsBurn.custom_change_addr = true) ∧
    (0 ≤ argsBurn.mixdepth) ∧
    (∀ t ∈ argsBurn.dest_and_amounts,
      targetWellFormed testEnv argsBurn.custom_change_addr
        argsBurn.dest_and_amounts.length t) ∧
    ({ destination := "BURN", amount := 0 : Target } ∈ argsBurn.dest_and_amounts) ∧
    (testEnv.is_burn_destination "BURN" = true) ∧
    (testEnv.walletIsFidelityBond = false) ∧
    (direct_send testEnv argsBurn).1.isBurnReject = true ∧
    (direct_send testEnv argsBurn).2 = [] := by
  refine ⟨by decide, rfl, by decide, by decide, by decide, by decide, rfl, ?_⟩
  exact c5_burn_rejected_before_selection testEnv argsBurn (by decide) rfl (by decide)
    (by decide) { destination := "BURN", amount := 0 } (by decide) (by decide)
    (Or.inl (Or.inl rfl))

/-! ## C6: locktime resolution -/

/-- The locktime-raising fold never goes below its starting value. -/
theorem ltFold_base_le (env : Env) :
    ∀ (us : List Utxo) (b : Int), b ≤ us.foldl (ltStep env) b := by
  intro us
  induction us with
  | nil => intro b; simp
  | cons u us ih =>
    intro b
    simp only [List.foldl_cons]
    refine le_trans ?_ (ih (ltStep env b u))
    unfold ltStep
    split
    · exact le_max_left _ _
    · exact le_refl b

/-- With no timelocked input, the locktime-raising fold returns its starting
value unchanged. -/
theorem ltFold_of_no_timelock (env : Env) :
    ∀ (us : List Utxo) (b : Int), (∀ u ∈ us, isTimelockedUtxo env u = false) →
      us.foldl (ltStep env) b = b := by
  intro us
  induction us with
  | nil => intro b _; rfl
  | cons u us ih =>
    intro b h
    have hstep : ltStep env b u = b := by
      unfold ltStep
      rw [h u (List.mem_cons_self u us)]
      simp
    simp only [List.foldl_cons, hstep]
    exact ih b fun u2 hu2 => h u2 (List.mem_cons_of_mem u hu2)

/-- Every timelocked input's `unlock + 1` is a lower bound of the fold. -/
theorem ltFold_timelocked_le (env : Env) :
    ∀ (us : List Utxo) (b : Int) (u : Utxo), u ∈ us →
      isTimelockedUtxo env u = true →
      unlockTimeOf env u + 1 ≤ us.foldl (ltStep env) b := by
  intro us
  induction us with
  | nil => intro b u hu; exact absurd hu (List.not_mem_nil u)
  | cons u2 us ih =>
    intro b u hu ht
    simp only [List.foldl_cons]
    rcases List.mem_cons.mp hu with rfl | hmem
    · have hstep : ltStep env b u = max b (unlockTimeOf env u + 1) := by
        unfold ltStep; rw [ht]; simp
      calc unlockTimeOf env u + 1 ≤ ltStep env b u := by rw [hstep]; exact le_max_right _ _
        _ ≤ us.foldl (ltStep env) (ltStep env b u) := ltFold_base_le env us _
    · exact ih (ltStep env b u2) u hmem ht

/-- The fold's value is either the starting value or `unlock + 1` of some
timelocked input. -/
theorem ltFold_cases (env : Env) :
    ∀ (us : List Utxo) (b : Int),
      us.foldl (ltStep env) b = b ∨
      ∃ u, u ∈ us ∧ isTimelockedUtxo env u = true ∧
        us.foldl (ltStep env) b = unlockTimeOf env u + 1 := by
  intro us
  induction us with
  | nil => intro b; left; rfl
  | cons u us ih =>
    intro b
    simp only [List.foldl_cons]
    rcases ih (ltStep env b u) with hc | ⟨u2, hu2, ht2, he2⟩
    · by_cases ht : isTimelockedUtxo env u = true
      · have hstep : ltStep env b u = max b (unlockTimeOf env u + 1) := by
          unfold ltStep; rw [ht]; simp
        rcases max_choice b (unlockTimeOf env u + 1) with hm | hm
        · left; rw [hc, hstep, hm]
        · right
          exact ⟨u, List.mem_cons_self u us, ht, by rw [hc, hstep, hm]⟩
      · have hstep : ltStep env b u = b := by
          unfold ltStep
          rw [Bool.not_eq_true] at ht
          rw [ht]
          simp
        left; rw [hc, hstep]
    · right; exact ⟨u2, List.mem_cons_of_mem u hu2, ht2, he2⟩

/-- C6: spending from the fidelity-bond mixdepth of a fidelity-bond wallet,
the transaction locktime is the base chain-height value when no selected
input is timelocked; otherwise it is strictly greater than every timelocked
input's unlock time, at least the base, and equal either to the base or to
some timelocked input's `unlock + 1` — that is, it equals
`max(base, max over timelocked inputs of unlock + 1)`. -/
theorem c6_locktime_resolution (env : Env) (mixdepth : Int) (utxos : List Utxo)
    (hmd : mixdepth = env.FIDELITY_BOND_MIXDEPTH)
    (hfb : env.walletIsFidelityBond = true) :
    ((∀ u ∈ utxos, isTimelockedUtxo env u = false) →
      resolveLocktime env mixdepth utxos = env.compute_tx_locktime) ∧
    (∀ u ∈ utxos, isTimelockedUtxo env u = true →
      unlockTimeOf env u < resolveLocktime env mixdepth utxos) ∧
    env.compute_tx_locktime ≤ resolveLocktime env mixdepth utxos ∧
    (resolveLocktime env mixdepth utxos = env.compute_tx_locktime ∨
      ∃ u, u ∈ utxos ∧ isTimelockedUtxo env u = true ∧
        resolveLocktime env mixdepth utxos = unlockTimeOf env u + 1) := by
  have hres : resolveLocktime env mixdepth utxos
      = utxos.foldl (ltStep env) env.compute_tx_locktime := by
    unfold resolveLocktime
    rw [if_pos ⟨hmd, hfb⟩]
  refine ⟨?_, ?_, ?_, ?_⟩
  · intro h
    rw [hres]
    exact ltFold_of_no_timelock env utxos _ h
  · intro u hu ht
    rw [hres]
    have := ltFold_timelocked_le env utxos env.compute_tx_locktime u hu ht
    omega
  · rw [hres]
    exact ltFold_base_le env utxos _
  · rw [hres]
    exact ltFold_cases env utxos _

/-- Witness for C6 at `envFB`/`utxosFB` (one timelocked coin with unlock
timestamp 1700000009). -/
theorem c6_locktime_resolution_witness :
    ((0 : Int) = envFB.FIDELITY_BOND_MIXDEPTH) ∧
    (envFB.walletIsFidelityBond = true) ∧
    (((∀ u ∈ utxosFB, isTimelockedUtxo envFB u = false) →
        resolveLocktime envFB 0 utxosFB = envFB.compute_tx_locktime) ∧
      (∀ u ∈ utxosFB, isTimelockedUtxo envFB u = true →
        unlockTimeOf envFB u < resolveLocktime envFB 0 utxosFB) ∧
      envFB.compute_tx_locktime ≤ resolveLocktime envFB 0 utxosFB ∧
      (resolveLocktime envFB 0 utxosFB = envFB.compute_tx_locktime ∨
        ∃ u, u ∈ utxosFB ∧ isTimelockedUtxo envFB u = true ∧
          resolveLocktime envFB 0 utxosFB = unlockTimeOf envFB u + 1)) :=
  ⟨rfl, rfl, c6_locktime_resolution envFB 0 utxosFB rfl rfl⟩

/-! ## C7: no broadcast on decline or on the PSBT-export path -/

/-- When exporting a PSBT, or when every confirmation provider declines, the
finalizer emits no events after assembly — in particular it never reaches the
broadcast step, whether signing succeeds or fails. -/
theorem finalizeTail_no_broadcast (env : Env) (a : Args) (utxos : List Utxo)
    (outs : List TxOut) (fee_est total_inputs_val : Int) (destination : Addr)
    (amount : Int) (change_addr : Option Addr)
    (h : a.with_final_psbt = true ∨
      (a.answeryes = false ∧
       (a.accept_callback = none → env.cli_prompt_user_yesno = false) ∧
       (∀ cb s d am fe cc2, a.accept_callback = some cb → cb s d am fe cc2 = false))) :
    (finalizeTail env a utxos outs fee_est total_inputs_val destination amount
      change_addr).2 = [] := by
  by_cases hp : a.with_final_psbt = true
  · simp only [finalizeTail, hp, if_true]
    split <;> rfl
  · rcases h with h | ⟨hay, hnone, hsome⟩
    · exact absurd h hp
    · simp only [finalizeTail]
      rw [if_neg hp]
      cases hst : env.sign_tx (assembledTx env a utxos outs)
          (utxos.map fun u => (u.script, u.value)) with
      | mk b msg =>
        cases b
        · simp [hst]
        · simp only [hst]
          have hacc : (if a.answeryes = true then true
              else match a.accept_callback with
                | none => env.cli_prompt_user_yesno
                | some cb =>
                  cb (env.human_readable_transaction (assembledTx env a utxos outs))
                    destination (if amount ≠ 0 then amount else total_inputs_val - fee_est)
                    fee_est a.custom_change_addr) = false := by
            rw [if_neg (by simp [hay])]
            cases hcb : a.accept_callback with
            | none => exact hnone hcb
            | some cb => exact hsome cb _ _ _ _ _ hcb
          rw [if_pos hacc]

/-- C7: the broadcast collaborator is never invoked when confirmation is
declined (by the injected accept callback or the interactive prompt), and
never invoked on the PSBT-export path, whether partial signing succeeds or
fails: the broadcast invocation count in the event log stays zero. -/
theorem c7_no_broadcast_on_decline_or_psbt (env : Env) (a : Args)
    (h : a.with_final_psbt = true ∨
      (a.answeryes = false ∧
       (a.accept_callback = none → env.cli_prompt_user_yesno = false) ∧
       (∀ cb s d am fe cc2, a.accept_callback = some cb → cb s d am fe cc2 = false))) :
    (direct_send env a).2.countP Event.isBroadcastEv = 0 := by
  unfold direct_send
  by_cases h1 : a.dest_and_amounts.length = 0
  · rw [if_pos h1]; rfl
  · rw [if_neg h1]
    by_cases h2 : customChangeOk env a.custom_change_addr = false
    · rw [if_pos h2]; rfl
    · rw [if_neg h2]
      by_cases h3 : a.mixdepth < 0
      · rw [if_pos h3]; rfl
      · rw [if_neg h3]
        cases hv : validateTargets env a.answeryes a.mixdepth a.custom_change_addr
            a.dest_and_amounts with
        | error e =>
          cases e with
          | assertError => rfl
          | burnReject k => rfl
        | ok vs =>
          dsimp only
          by_cases hsw : vs.is_sweep = true
          · rw [if_pos hsw]
            cases hsp : sweepPlanOf env a.mixdepth vs a.dest_and_amounts with
            | error r => simp [hsp, Event.isBroadcastEv]
            | ok p =>
              have htail := finalizeTail_no_broadcast env a p.utxos p.outs
                p.fee_est p.total_inputs_val
                ((a.dest_and_amounts.headD { destination := "", amount := 0 }).destination)
                ((a.dest_and_amounts.headD { destination := "", amount := 0 }).amount)
                none h
              simp only [hsp, finalize]
              rw [htail]
              simp [Event.isBroadcastEv]
          · rw [if_neg hsw]
            have htail := finalizeTail_no_broadcast env a
              (payUtxos env a.mixdepth a.custom_change_addr vs a.dest_and_amounts)
              (payOuts env a.mixdepth a.custom_change_addr vs a.dest_and_amounts)
              (payFee env a.mixdepth a.custom_change_addr vs a.dest_and_amounts)
              (sumValues (payUtxos env a.mixdepth a.custom_change_addr vs a.dest_and_amounts))
              vs.destination vs.amount
              (some (payChangeAddr env a.mixdepth a.custom_change_addr)) h
            simp only [finalize, payPlanOf]
            rw [htail]
            simp [Event.isBroadcastEv]

/-- Witness for C7 on the PSBT-export path at `testEnv`/`argsPsbt`. -/
theorem c7_no_broadcast_witness :
    (argsPsbt.with_final_psbt = true) ∧
    (direct_send testEnv argsPsbt).2.countP Event.isBroadcastEv = 0 :=
  ⟨rfl, c7_no_broadcast_on_decline_or_psbt testEnv argsPsbt (Or.inl rfl)⟩

/-! ## C8: amount 0 together with several destinations -/

/-- If every target has a validating non-burn address and a non-negative
amount, some target's amount is 0, and the request length is not 1, the
validation loop dies on the sweep-sanity `assert` at the first zero-amount
target. -/
theorem validateLoop_zero_assert {env : Env} {ay : Bool} {md : Int}
    {cc : Option Addr} {n : Nat} (hn : n ≠ 1) :
    ∀ {ts : List Target} (st : ValState),
      (∀ t ∈ ts, env.validateAddress t.destination = true ∧
        env.is_burn_destination t.destination = false ∧ 0 ≤ t.amount) →
      (∃ t0, t0 ∈ ts ∧ t0.amount = 0) →
      validateLoop env ay md cc n st ts = .error .assertError := by
  intro ts
  induction ts with
  | nil =>
    intro st _ hex
    obtain ⟨t0, ht0, _⟩ := hex
    exact absurd ht0 (List.not_mem_nil t0)
  | cons t ts ih =>
    intro st hwf hex
    obtain ⟨hva, hb, hge⟩ := hwf t (List.mem_cons_self t ts)
    by_cases h0 : t.amount = 0
    · have hc2 : t.amount = 0 ∧ ¬(cc = none ∧ n = 1) := ⟨h0, fun hcn => hn hcn.2⟩
      have herr : processTarget env ay md cc n st t = .error .assertError := by
        simp [processTarget, hva, hc2]
      unfold validateLoop
      rw [herr]
    · have hok := processTarget_ok_of_wf env ay md cc n st t
        ⟨by simp [hva], hge, fun hz => absurd hz h0⟩ (Or.inl hb)
      obtain ⟨t0, ht0, h00⟩ := hex
      have ht0' : t0 ∈ ts := by
        rcases List.mem_cons.mp ht0 with rfl | hm
        · exact absurd h00 h0
        · exact hm
      have hrest := ih
        { is_sweep := if t.amount = 0 then true else st.is_sweep,
          outtypes := st.outtypes ++ [env.get_outtype t.destination],
          total_outputs_val := st.total_outputs_val + t.amount,
          destination := t.destination, amount := t.amount }
        (fun t2 ht2 => hwf t2 (List.mem_cons_of_mem t ht2)) ⟨t0, ht0', h00⟩
      unfold validateLoop
      rw [hok]
      exact hrest

/-- C8 (amended): a request containing an amount-0 entry together with more
than one destination dies on the sweep-sanity `assert`: an `AssertionError`
escapes the call — no value (and in particular no uniform negative outcome)
is returned — and no inputs are ever fetched. -/
theorem c8_zero_amount_multi_asserts (env : Env) (a : Args)
    (hlen : 1 < a.dest_and_amounts.length)
    (hcc : customChangeOk env a.custom_change_addr = true)
    (hmd : 0 ≤ a.mixdepth)
    (hall : ∀ t ∈ a.dest_and_amounts, env.validateAddress t.destination = true ∧
      env.is_burn_destination t.destination = false ∧ 0 ≤ t.amount)
    (hex : ∃ t0, t0 ∈ a.dest_and_amounts ∧ t0.amount = 0) :
    direct_send env a = (.raised .assertFail, []) := by
  have hn : a.dest_and_amounts.length ≠ 1 := by omega
  have hv : validateTargets env a.answeryes a.mixdepth a.custom_change_addr
      a.dest_and_amounts = .error .assertError :=
    validateLoop_zero_assert hn _ hall hex
  unfold direct_send
  rw [if_neg (by omega), if_neg (by simp [hcc]), if_neg (not_lt.mpr hmd)]
  simp [hv]

/-- C8 counterexample: the request `[("A", 0), ("B", 5)]` makes the call die
with an `AssertionError` — an unhandled exception — rather than returning a
uniform negative outcome. -/
theorem c8_counterexample :
    direct_send testEnv argsZeroMulti = (.raised .assertFail, []) ∧
    (direct_send testEnv argsZeroMulti).1.isReturned = false := by decide

/-- Witness for the amended C8 at `testEnv`/`argsZeroMulti`. -/
theorem c8_zero_amount_multi_asserts_witness :
    (1 < argsZeroMulti.dest_and_amounts.length) ∧
    (customChangeOk testEnv argsZeroMulti.custom_change_addr = true) ∧
    (0 ≤ argsZeroMulti.mixdepth) ∧
    (∀ t ∈ argsZeroMulti.dest_and_amounts,
      testEnv.validateAddress t.destination = true ∧
      testEnv.is_burn_destination t.destination = false ∧ 0 ≤ t.amount) ∧
    (∃ t0, t0 ∈ argsZeroMulti.dest_and_amounts ∧ t0.amount = 0) ∧
    direct_send testEnv argsZeroMulti = (.raised .assertFail, []) :=
  ⟨by decide, rfl, by decide, by decide,
   ⟨{ destination := "A", amount := 0 }, by decide, rfl⟩,
   c8_zero_amount_multi_asserts testEnv argsZeroMulti (by decide) rfl (by decide)
     (by decide) ⟨{ destination := "A", amount := 0 }, by decide, rfl⟩⟩

/-! ## C9: failure paths do not all return `False` -/

/-- C9: the no-funds and raw-signing-failure paths execute a bare `return`,
handing `None` — not `False` — back to the caller, although the function's
own docstring promises `False` on any failure; validation failures even
escape as exceptions (see the C8 counterexample).  So the failure paths do
not share one uniform negative return value. -/
theorem c9_none_returned_not_false :
    (direct_send envNoCoins argsSweep).1 = DSResult.retNone FailReason.noFunds ∧
    (direct_send envNoCoins argsSweep).1.isRetFalse = false ∧
    (direct_send envNoCoins argsSweep).2 = [Event.getSpendable 0] ∧
    (direct_send envSignFail argsPay).1 = DSResult.retNone FailReason.signTxFail ∧
    (direct_send envSignFail argsPay).1.isRetFalse = false := by decide

/-! ## C10: change labeling -/

/-- The broadcast step always emits exactly one broadcast event. -/
theorem broadcastStep_snd (env : Env) (rt : Bool) (tx : Nat) :
    (broadcastStep env rt tx).2 = [Event.broadcast tx] := by
  unfold broadcastStep
  by_cases hp : env.pushtx tx = true
  · rw [if_pos hp]
    by_cases hr : rt = true
    · rw [if_pos hr]
    · rw [if_neg hr]
  · rw [if_neg hp]

/-- The broadcast step's result is decided by `pushtx` and the
`return_transaction` flag alone. -/
theorem broadcastStep_fst (env : Env) (rt : Bool) (tx : Nat) :
    (broadcastStep env rt tx).1
      = if env.pushtx tx = true then
          (if rt = true then DSResult.retTx tx
           else DSResult.retTxid (env.get_txid tx))
        else DSResult.retFalse FailReason.broadcastFail := by
  unfold broadcastStep
  by_cases hp : env.pushtx tx = true
  · rw [if_pos hp, if_pos hp]
    by_cases hr : rt = true
    · rw [if_pos hr, if_pos hr]
    · rw [if_neg hr, if_neg hr]
  · rw [if_neg hp, if_neg hp]

/-- A signed, auto-confirmed, non-PSBT run with a change label labels the
change address and then runs the broadcast step, whose outcome it returns
unchanged. -/
theorem finalizeTail_label_run (env : Env) (a : Args) (utxos : List Utxo)
    (outs : List TxOut) (fee_est total_inputs_val : Int) (destination : Addr)
    (amount : Int) (ca : Addr) (lbl : String)
    (hpsbt : a.with_final_psbt = false)
    (hlbl : a.change_label = some lbl)
    (hsig : ∀ t ins, env.sign_tx t ins = (true, ""))
    (hay : a.answeryes = true) :
    finalizeTail env a utxos outs fee_est total_inputs_val destination amount (some ca)
      = ((broadcastStep env a.return_transaction (assembledTx env a utxos outs)).1,
         Event.labelAddr ca lbl (env.set_address_label ca lbl)
           :: (broadcastStep env a.return_transaction (assembledTx env a utxos outs)).2) := by
  simp only [finalizeTail]
  rw [if_neg (by simp [hpsbt])]
  rw [hsig]
  rw [if_neg (by simp [hay])]
  simp [hlbl]

/-- C10: in a confirmed non-sweep run with a change label, the
address-labeling call happens after assembly and before the broadcast
attempt; the outcome is decided by `pushtx` alone, whatever the labeling
call returned (an `UnknownAddressForLabel` result is swallowed); and when
the broadcast fails the label call remains in the event log while the
negative outcome is returned. -/
theorem c10_change_label_before_broadcast (env : Env) (a : Args) (vs : ValState)
    (lbl : String)
    (hne : a.dest_and_amounts ≠ [])
    (hcc : customChangeOk env a.custom_change_addr = true)
    (hmd : 0 ≤ a.mixdepth)
    (hv : validateTargets env a.answeryes a.mixdepth a.custom_change_addr
        a.dest_and_amounts = .ok vs)
    (hs : vs.is_sweep = false)
    (hpsbt : a.with_final_psbt = false)
    (hlbl : a.change_label = some lbl)
    (hsig : ∀ t ins, env.sign_tx t ins = (true, ""))
    (hay : a.answeryes = true) :
    ((direct_send env a).2
      = [Event.selectInputs a.mixdepth
           (paySelectMin env a.custom_change_addr vs a.dest_and_amounts),
         Event.assembled (payOuts env a.mixdepth a.custom_change_addr vs a.dest_and_amounts)
           (resolveLocktime env a.mixdepth
             (payUtxos env a.mixdepth a.custom_change_addr vs a.dest_and_amounts)),
         Event.labelAddr (payChangeAddr env a.mixdepth a.custom_change_addr) lbl
           (env.set_address_label (payChangeAddr env a.mixdepth a.custom_change_addr) lbl),
         Event.broadcast (assembledTx env a
           (payUtxos env a.mixdepth a.custom_change_addr vs a.dest_and_amounts)
           (payOuts env a.mixdepth a.custom_change_addr vs a.dest_and_amounts))]) ∧
    ((direct_send env a).1
      = if env.pushtx (assembledTx env a
            (payUtxos env a.mixdepth a.custom_change_addr vs a.dest_and_amounts)
            (payOuts env a.mixdepth a.custom_change_addr vs a.dest_and_amounts)) = true then
          (if a.return_transaction = true then
            DSResult.retTx (assembledTx env a
              (payUtxos env a.mixdepth a.custom_change_addr vs a.dest_and_amounts)
              (payOuts env a.mixdepth a.custom_change_addr vs a.dest_and_amounts))
          else DSResult.retTxid (env.get_txid (assembledTx env a
              (payUtxos env a.mixdepth a.custom_change_addr vs a.dest_and_amounts)
              (payOuts env a.mixdepth a.custom_change_addr vs a.dest_and_amounts))))
        else DSResult.retFalse FailReason.broadcastFail) ∧
    (env.pushtx (assembledTx env a
        (payUtxos env a.mixdepth a.custom_change_addr vs a.dest_and_amounts)
        (payOuts env a.mixdepth a.custom_change_addr vs a.dest_and_amounts)) = false →
      (direct_send env a).1 = DSResult.retFalse FailReason.broadcastFail ∧
      Event.labelAddr (payChangeAddr env a.mixdepth a.custom_change_addr) lbl
        (env.set_address_label (payChangeAddr env a.mixdepth a.custom_change_addr) lbl)
        ∈ (direct_send env a).2) := by
  have hrun := direct_send_payment_run env a vs hne hcc hmd hv hs
  have hft := finalizeTail_label_run env a
    (payUtxos env a.mixdepth a.custom_change_addr vs a.dest_and_amounts)
    (payOuts env a.mixdepth a.custom_change_addr vs a.dest_and_amounts)
    (payFee env a.mixdepth a.custom_change_addr vs a.dest_and_amounts)
    (sumValues (payUtxos env a.mixdepth a.custom_change_addr vs a.dest_and_amounts))
    vs.destination vs.amount
    (payChangeAddr env a.mixdepth a.custom_change_addr) lbl hpsbt hlbl hsig hay
  rw [hrun]
  simp only [finalize, hft, broadcastStep_snd, broadcastStep_fst]
  exact ⟨by simp, by trivial, fun hpu => ⟨by simp [hpu], by simp⟩⟩

/-- Witness for C10 at `testEnv`/`argsLbl`/`vsPay`. -/
theorem c10_change_label_before_broadcast_witness :
    ((direct_send testEnv argsLbl).2
      = [Event.selectInputs argsLbl.mixdepth
           (paySelectMin testEnv argsLbl.custom_change_addr vsPay argsLbl.dest_and_amounts),
         Event.assembled
           (payOuts testEnv argsLbl.mixdepth argsLbl.custom_change_addr vsPay
             argsLbl.dest_and_amounts)
           (resolveLocktime testEnv argsLbl.mixdepth
             (payUtxos testEnv argsLbl.mixdepth argsLbl.custom_change_addr vsPay
               argsLbl.dest_and_amounts)),
         Event.labelAddr (payChangeAddr testEnv argsLbl.mixdepth argsLbl.custom_change_addr)
           "donation"
           (testEnv.set_address_label
             (payChangeAddr testEnv argsLbl.mixdepth argsLbl.custom_change_addr) "donation"),
         Event.broadcast (assembledTx testEnv argsLbl
           (payUtxos testEnv argsLbl.mixdepth argsLbl.custom_change_addr vsPay
             argsLbl.dest_and_amounts)
           (payOuts testEnv argsLbl.mixdepth argsLbl.custom_change_addr vsPay
             argsLbl.dest_and_amounts))]) ∧
    ((direct_send testEnv argsLbl).1
      = if testEnv.pushtx (assembledTx testEnv argsLbl
            (payUtxos testEnv argsLbl.mixdepth argsLbl.custom_change_addr vsPay
              argsLbl.dest_and_amounts)
            (payOuts testEnv argsLbl.mixdepth argsLbl.custom_change_addr vsPay
              argsLbl.dest_and_amounts)) = true then
          (if argsLbl.return_transaction = true then
            DSResult.retTx (assembledTx testEnv argsLbl
              (payUtxos testEnv argsLbl.mixdepth argsLbl.custom_change_addr vsPay
                argsLbl.dest_and_amounts)
              (payOuts testEnv argsLbl.mixdepth argsLbl.custom_change_addr vsPay
                argsLbl.dest_and_amounts))
          else DSResult.retTxid (testEnv.get_txid (assembledTx testEnv argsLbl
              (payUtxos testEnv argsLbl.mixdepth argsLbl.custom_change_addr vsPay
                argsLbl.dest_and_amounts)
              (payOuts testEnv argsLbl.mixdepth argsLbl.custom_change_addr vsPay
                argsLbl.dest_and_amounts))))
        else DSResult.retFalse FailReason.broadcastFail) ∧
    (testEnv.pushtx (assembledTx testEnv argsLbl
        (payUtxos testEnv argsLbl.mixdepth argsLbl.custom_change_addr vsPay
          argsLbl.dest_and_amounts)
        (payOuts testEnv argsLbl.mixdepth argsLbl.custom_change_addr vsPay
          argsLbl.dest_and_amounts)) = false →
      (direct_send testEnv argsLbl).1 = DSResult.retFalse FailReason.broadcastFail ∧
      Event.labelAddr (payChangeAddr testEnv argsLbl.mixdepth argsLbl.custom_change_addr)
        "donation"
        (testEnv.set_address_label
          (payChangeAddr testEnv argsLbl.mixdepth argsLbl.custom_change_addr) "donation")
        ∈ (direct_send testEnv argsLbl).2) :=
  c10_change_label_before_broadcast testEnv argsLbl vsPay "donation" (by decide) rfl
    (by decide) rfl rfl rfl rfl (fun t ins => rfl) rfl

/-! ## C3: the input-selection minimum-value target -/

/-- C3 (the code evaluated at the failing input): for the two-destination
request `[("A", 100000), ("B", 50000)]` under a flat conservative fee of
1000, the selector is invoked with minimum value `51000` — the LAST
destination's amount plus the conservative fee (the source's leftover loop
variable `amount`) — although the total requested amount plus the same fee
is `151000`. -/
theorem c3_selector_minvalue_at_failing_input :
    validateTargets testEnv argsMulti.answeryes argsMulti.mixdepth
      argsMulti.custom_change_addr argsMulti.dest_and_amounts = .ok vsMulti ∧
    (direct_send testEnv argsMulti).2.head? = some (Event.selectInputs 0 51000) ∧
    paySelectMin testEnv argsMulti.custom_change_addr vsMulti
      argsMulti.dest_and_amounts = 51000 ∧
    (argsMulti.dest_and_amounts.map Target.amount).sum
      + payInitialFee testEnv argsMulti.custom_change_addr vsMulti
          argsMulti.dest_and_amounts = 151000 :=
  ⟨rfl, by decide, by decide, by decide⟩

/-! ## C4: no insufficient-funds check on the residual value -/

/-- C4 counterexample: with a flat fee estimate of 1000000 and one
100000-satoshi coin, the request `[("A", 50000)]` has change value
`-950000`, yet the pipeline builds, signs and broadcasts a transaction whose
change output carries that negative value — no insufficient-funds failure
occurs anywhere. -/
theorem c4_counterexample :
    payChangeval envBigFee argsPay.mixdepth argsPay.custom_change_addr vsPay
      argsPay.dest_and_amounts = -950000 ∧
    (direct_send envBigFee argsPay).1 = DSResult.retTxid 42 ∧
    (direct_send envBigFee argsPay).2
      = [Event.selectInputs 0 1050000,
         Event.assembled [{ address := "A", value := 50000 },
                          { address := "CHANGE", value := -950000 }] 700000,
         Event.broadcast 42] := by decide

/-- C4 (amended): the pipeline performs no negativity check on the residual
value.  In payment mode, even when the change value
`total_inputs_val - fee_est - total_outputs_val` is negative, the run still
reaches assembly and the output list contains the change output carrying
that negative value; in sweep mode the planner likewise succeeds with the
sole output `total_inputs_val - fee_est` whatever its sign.  No
insufficient-funds failure exists at this stage. -/
theorem c4_no_negativity_check (env : Env) (a : Args) (vs : ValState)
    (hne : a.dest_and_amounts ≠ [])
    (hcc : customChangeOk env a.custom_change_addr = true)
    (hmd : 0 ≤ a.mixdepth)
    (hv : validateTargets env a.answeryes a.mixdepth a.custom_change_addr
        a.dest_and_amounts = .ok vs)
    (hs : vs.is_sweep = false)
    (hneg : payChangeval env a.mixdepth a.custom_change_addr vs a.dest_and_amounts < 0) :
    (∃ rest, (direct_send env a).2
        = [Event.selectInputs a.mixdepth
             (paySelectMin env a.custom_change_addr vs a.dest_and_amounts),
           Event.assembled (payOuts env a.mixdepth a.custom_change_addr vs a.dest_and_amounts)
             (resolveLocktime env a.mixdepth
               (payUtxos env a.mixdepth a.custom_change_addr vs a.dest_and_amounts))] ++ rest) ∧
    ({ address := payChangeAddr env a.mixdepth a.custom_change_addr,
       value := payChangeval env a.mixdepth a.custom_change_addr vs a.dest_and_amounts :
        TxOut }
      ∈ payOuts env a.mixdepth a.custom_change_addr vs a.dest_and_amounts) ∧
    (∀ (md2 : Int) (vs2 : ValState) (tgs : List Target),
      env.get_utxos_by_mixdepth md2 ≠ [] →
      sumValues (env.get_utxos_by_mixdepth md2) - sweepFee env md2 vs2 < 0 →
      sweepPlanOf env md2 vs2 tgs = .ok
        { utxos := env.get_utxos_by_mixdepth md2,
          fee_est := sweepFee env md2 vs2,
          total_inputs_val := sumValues (env.get_utxos_by_mixdepth md2),
          outs := [{ address := (tgs.headD { destination := "", amount := 0 }).destination,
                     value := sumValues (env.get_utxos_by_mixdepth md2)
                       - sweepFee env md2 vs2 }] }) := by
  refine ⟨?_, ?_, ?_⟩
  · rw [direct_send_payment_run env a vs hne hcc hmd hv hs]
    obtain ⟨rest, hres⟩ := finalize_events_shape env a
      (payUtxos env a.mixdepth a.custom_change_addr vs a.dest_and_amounts)
      (payOuts env a.mixdepth a.custom_change_addr vs a.dest_and_amounts)
      (payFee env a.mixdepth a.custom_change_addr vs a.dest_and_amounts)
      (sumValues (payUtxos env a.mixdepth a.custom_change_addr vs a.dest_and_amounts))
      vs.destination vs.amount
      (some (payChangeAddr env a.mixdepth a.custom_change_addr))
      [Event.selectInputs a.mixdepth
        (paySelectMin env a.custom_change_addr vs a.dest_and_amounts)]
    exact ⟨rest, by rw [hres]; simp⟩
  · unfold payOuts
    exact List.mem_append_right _ (List.mem_singleton.mpr rfl)
  · intro md2 vs2 tgs hu _
    unfold sweepPlanOf
    simp only [if_neg hu]

/-- Witness for the amended C4 at `envBigFee`/`argsPay`/`vsPay` (change value
`-950000`). -/
theorem c4_no_negativity_check_witness :
    (payChangeval envBigFee argsPay.mixdepth argsPay.custom_change_addr vsPay
      argsPay.dest_and_amounts < 0) ∧
    ((∃ rest, (direct_send envBigFee argsPay).2
        = [Event.selectInputs argsPay.mixdepth
             (paySelectMin envBigFee argsPay.custom_change_addr vsPay
               argsPay.dest_and_amounts),
           Event.assembled
             (payOuts envBigFee argsPay.mixdepth argsPay.custom_change_addr vsPay
               argsPay.dest_and_amounts)
             (resolveLocktime envBigFee argsPay.mixdepth
               (payUtxos envBigFee argsPay.mixdepth argsPay.custom_change_addr vsPay
                 argsPay.dest_and_amounts))] ++ rest) ∧
      ({ address := payChangeAddr envBigFee argsPay.mixdepth argsPay.custom_change_addr,
         value := payChangeval envBigFee argsPay.mixdepth argsPay.custom_change_addr vsPay
           argsPay.dest_and_amounts : TxOut }
        ∈ payOuts envBigFee argsPay.mixdepth argsPay.custom_change_addr vsPay
            argsPay.dest_and_amounts) ∧
      (∀ (md2 : Int) (vs2 : ValState) (tgs : List Target),
        envBigFee.get_utxos_by_mixdepth md2 ≠ [] →
        sumValues (envBigFee.get_utxos_by_mixdepth md2) - sweepFee envBigFee md2 vs2 < 0 →
        sweepPlanOf envBigFee md2 vs2 tgs = .ok
          { utxos := envBigFee.get_utxos_by_mixdepth md2,
            fee_est := sweepFee envBigFee md2 vs2,
            total_inputs_val := sumValues (envBigFee.get_utxos_by_mixdepth md2),
            outs := [{ address := (tgs.headD { destination := "", amount := 0 }).destination,
                       value := sumValues (envBigFee.get_utxos_by_mixdepth md2)
                         - sweepFee envBigFee md2 vs2 }] })) :=
  ⟨by decide,
   c4_no_negativity_check envBigFee argsPay vsPay (by decide) rfl (by decide) rfl rfl
     (by decide)⟩

end JMClient
